import Mathlib

/-!
Verification of the simulator pipeline in `src/simulator/src/main.rs`.

Strings handled by the error classifier are modelled as `List Char`
(Rust `&str` viewed as its character sequence); Rust's `to_lowercase`
is modelled character-wise via `Char.toLower` (the keywords matched by
the classifier are all ASCII, where the two agree), and `str::contains`
with a string pattern is modelled by `containsSub` below.

External collaborators of `main` (serde_json, the base64 engine, the
XDR codec and the soroban host) are modelled as abstract fallible
functions gathered in a `Codec` structure and a `Host` structure;
Rust `Result` becomes `Except String`, with error values carried as
their already-formatted display/debug strings.
-/

/-- Boolean test that `p` is a prefix of `l`, comparing characters left to right. -/
def isPref : List Char → List Char → Bool
  | [], _ => true
  | _ :: _, [] => false
  | p :: ps, h :: hs => p == h && isPref ps hs

/-- Boolean substring containment: `containsSub hay pat` models Rust
`hay.contains(pat)` for a string pattern, scanning every suffix of `hay`. -/
def containsSub : List Char → List Char → Bool
  | [], pat => isPref pat []
  | h :: t, pat => isPref pat (h :: t) || containsSub t pat

/-- Character-wise lowercasing, modelling `str::to_lowercase` on the ASCII
fragment relevant to the classifier's keywords. -/
def to_lowercase (s : List Char) : List Char :=
  s.map Char.toLower

/-- Embedding of `decode_error` from `src/simulator/src/main.rs` (lines 161-191):
ordered, case-insensitive substring rules classifying an engine failure message. -/
def decode_error (err_msg : List Char) : List Char :=
  let err_lower := to_lowercase err_msg
  if containsSub err_lower ("wasm trap".data) || containsSub err_lower ("trapped".data) then
    if containsSub err_lower ("unreachable".data) then
      ("VM Trap: Unreachable Instruction (Panic or invalid code path)".data)
    else if containsSub err_lower ("out of bounds".data) || containsSub err_lower ("memory access".data) then
      ("VM Trap: Out of Bounds Access (Invalid memory read/write)".data)
    else if containsSub err_lower ("integer overflow".data) || containsSub err_lower ("arithmetic overflow".data) then
      ("VM Trap: Integer Overflow".data)
    else if containsSub err_lower ("stack overflow".data) || containsSub err_lower ("call stack exhausted".data) then
      ("VM Trap: Stack Overflow (Recursion limit exceeded)".data)
    else if containsSub err_lower ("divide by zero".data) then
      ("VM Trap: Division by Zero".data)
    else
      ("VM Trap: Unknown Wasm Trap (".data) ++ err_msg ++ (")".data)
  else if containsSub err_lower ("hosterror".data) || containsSub err_lower ("context".data) then
    ("Host Trap: ".data) ++ err_msg
  else
    ("Execution Error: ".data) ++ err_msg

lemma isPref_append_left (p : List Char) :
    ∀ l m : List Char, isPref p l = true → isPref p (l ++ m) = true := by
  induction p with
  | nil => intro l m _; simp [isPref]
  | cons c cs ih =>
    intro l m h
    cases l with
    | nil => simp [isPref] at h
    | cons a as =>
      simp only [isPref, Bool.and_eq_true] at h
      simp only [List.cons_append, isPref, Bool.and_eq_true]
      exact ⟨h.1, ih as m h.2⟩

lemma isPref_append_left_false (p : List Char) :
    ∀ l m : List Char, p.length ≤ l.length → isPref p l = false →
      isPref p (l ++ m) = false := by
  induction p with
  | nil => intro l m _ h; simp [isPref] at h
  | cons c cs ih =>
    intro l m hlen h
    cases l with
    | nil => simp only [List.length_cons, List.length_nil] at hlen; omega
    | cons a as =>
      simp only [List.cons_append, isPref, Bool.and_eq_false_iff] at h ⊢
      simp only [List.length_cons, Nat.succ_le_succ_iff] at hlen
      cases h with
      | inl h => exact Or.inl h
      | inr h => exact Or.inr (ih as m hlen h)

lemma isPref_refl (l : List Char) : isPref l l = true := by
  induction l with
  | nil => simp [isPref]
  | cons a as ih => simp [isPref, ih]

lemma containsSub_append_right (m : List Char) :
    ∀ l : List Char, containsSub (l ++ m) m = true := by
  intro l
  induction l with
  | nil =>
    cases m with
    | nil => simp [containsSub, isPref]
    | cons a as => simp [containsSub, isPref_refl]
  | cons a as ih =>
    simp only [List.cons_append, containsSub, Bool.or_eq_true]
    exact Or.inr ih

lemma decode_error_vm_cases (msg : List Char)
    (hcond : (containsSub (to_lowercase msg) ("wasm trap".data) ||
              containsSub (to_lowercase msg) ("trapped".data)) = true) :
    decode_error msg = ("VM Trap: Unreachable Instruction (Panic or invalid code path)".data) ∨
    decode_error msg = ("VM Trap: Out of Bounds Access (Invalid memory read/write)".data) ∨
    decode_error msg = ("VM Trap: Integer Overflow".data) ∨
    decode_error msg = ("VM Trap: Stack Overflow (Recursion limit exceeded)".data) ∨
    decode_error msg = ("VM Trap: Division by Zero".data) ∨
    decode_error msg = ("VM Trap: Unknown Wasm Trap (".data) ++ msg ++ (")".data) := by
  simp only [decode_error, hcond, if_true]
  split
  · simp
  · split
    · simp
    · split
      · simp
      · split
        · simp
        · split
          · simp
          · simp

/-- C1: every failure message that contains a VM-trap keyword ("wasm trap" or
"trapped", case-insensitive) and also a host-trap keyword ("hosterror" or
"context", case-insensitive) is classified by `decode_error` as a VM-trap
category (output begins with "VM Trap:"), never as a Host Trap category. -/
theorem vm_trap_beats_host_trap (msg : List Char)
    (h1 : containsSub (to_lowercase msg) ("wasm trap".data) = true ∨
          containsSub (to_lowercase msg) ("trapped".data) = true)
    (h2 : containsSub (to_lowercase msg) ("hosterror".data) = true ∨
          containsSub (to_lowercase msg) ("context".data) = true) :
    isPref ("VM Trap:".data) (decode_error msg) = true ∧
    isPref ("Host Trap:".data) (decode_error msg) = false := by
  have hcond : (containsSub (to_lowercase msg) ("wasm trap".data) ||
      containsSub (to_lowercase msg) ("trapped".data)) = true := by
    cases h1 with
    | inl h => simp [h]
    | inr h => simp [h]
  rcases decode_error_vm_cases msg hcond with h | h | h | h | h | h <;> rw [h]
  · exact ⟨by decide, by decide⟩
  · exact ⟨by decide, by decide⟩
  · exact ⟨by decide, by decide⟩
  · exact ⟨by decide, by decide⟩
  · exact ⟨by decide, by decide⟩
  · constructor
    · exact isPref_append_left _ _ _ (isPref_append_left _ _ _ (by decide))
    · have hlenlit : ("Host Trap:".data).length ≤ ("VM Trap: Unknown Wasm Trap (".data).length := by
        decide
      have hlen2 : ("Host Trap:".data).length ≤ (("VM Trap: Unknown Wasm Trap (".data) ++ msg).length := by
        rw [List.length_append]
        exact le_trans hlenlit (Nat.le_add_right _ _)
      exact isPref_append_left_false _ _ _ hlen2
        (isPref_append_left_false _ _ _ (by decide) (by decide))

/-- C1 witness: a concrete message containing both "wasm trap" and "context". -/
theorem vm_trap_beats_host_trap_witness :
    isPref ("VM Trap:".data) (decode_error ("wasm trap in context".data)) = true ∧
    isPref ("Host Trap:".data) (decode_error ("wasm trap in context".data)) = false :=
  vm_trap_beats_host_trap ("wasm trap in context".data) (Or.inl (by decide)) (Or.inr (by decide))

/-- C2 counterexample: the message "wasm trap: unreachable out of bounds"
contains a VM-trap keyword and "out of bounds", yet `decode_error` does not
return the Out of Bounds category (the earlier "unreachable" rule fires). -/
theorem oob_claim_counterexample :
    containsSub (to_lowercase ("wasm trap: unreachable out of bounds".data)) ("wasm trap".data) = true ∧
    containsSub (to_lowercase ("wasm trap: unreachable out of bounds".data)) ("out of bounds".data) = true ∧
    decode_error ("wasm trap: unreachable out of bounds".data) ≠
      ("VM Trap: Out of Bounds Access (Invalid memory read/write)".data) :=
  ⟨by decide, by decide, by decide⟩

/-- C2 (amended): every message containing a VM-trap keyword and "out of
bounds" or "memory access" (case-insensitive), and not containing
"unreachable" (case-insensitive), classifies as the Out of Bounds category. -/
theorem oob_requires_no_unreachable (msg : List Char)
    (h1 : containsSub (to_lowercase msg) ("wasm trap".data) = true ∨
          containsSub (to_lowercase msg) ("trapped".data) = true)
    (h2 : containsSub (to_lowercase msg) ("out of bounds".data) = true ∨
          containsSub (to_lowercase msg) ("memory access".data) = true)
    (h3 : containsSub (to_lowercase msg) ("unreachable".data) = false) :
    decode_error msg = ("VM Trap: Out of Bounds Access (Invalid memory read/write)".data) := by
  have hcond : (containsSub (to_lowercase msg) ("wasm trap".data) ||
      containsSub (to_lowercase msg) ("trapped".data)) = true := by
    cases h1 with
    | inl h => simp [h]
    | inr h => simp [h]
  have h2' : (containsSub (to_lowercase msg) ("out of bounds".data) ||
      containsSub (to_lowercase msg) ("memory access".data)) = true := by
    cases h2 with
    | inl h => simp [h]
    | inr h => simp [h]
  simp [decode_error, hcond, h2', h3]

/-- C2 (amended) witness: a concrete trapped out-of-bounds message. -/
theorem oob_requires_no_unreachable_witness :
    decode_error ("trapped: memory access violation".data) =
      ("VM Trap: Out of Bounds Access (Invalid memory read/write)".data) :=
  oob_requires_no_unreachable ("trapped: memory access violation".data)
    (Or.inr (by decide)) (Or.inr (by decide)) (by decide)

/-- C6: every message containing "hosterror" (case-insensitive) but neither
"wasm trap" nor "trapped" classifies as "Host Trap: " followed by the original
message, and the result is never a VM Trap category. -/
theorem host_trap_classification (msg : List Char)
    (h1 : containsSub (to_lowercase msg) ("hosterror".data) = true)
    (h2 : containsSub (to_lowercase msg) ("wasm trap".data) = false)
    (h3 : containsSub (to_lowercase msg) ("trapped".data) = false) :
    decode_error msg = ("Host Trap: ".data) ++ msg ∧
    isPref ("VM Trap:".data) (decode_error msg) = false := by
  have he : decode_error msg = ("Host Trap: ".data) ++ msg := by
    simp [decode_error, h1, h2, h3]
  refine ⟨he, ?_⟩
  rw [he]
  exact isPref_append_left_false _ _ _ (by decide) (by decide)

/-- C6 witness: a concrete host error message. -/
theorem host_trap_classification_witness :
    decode_error ("hosterror: auth failed".data) =
      ("Host Trap: ".data) ++ ("hosterror: auth failed".data) ∧
    isPref ("VM Trap:".data) (decode_error ("hosterror: auth failed".data)) = false :=
  host_trap_classification ("hosterror: auth failed".data) (by decide) (by decide) (by decide)

/-- C7: every message containing none of the classifier's known substrings
("wasm trap", "trapped", "hosterror", "context", case-insensitive) classifies
as "Execution Error: " followed by the original message, and the original
message appears verbatim inside the output. -/
theorem execution_error_fallback (msg : List Char)
    (h1 : containsSub (to_lowercase msg) ("wasm trap".data) = false)
    (h2 : containsSub (to_lowercase msg) ("trapped".data) = false)
    (h3 : containsSub (to_lowercase msg) ("hosterror".data) = false)
    (h4 : containsSub (to_lowercase msg) ("context".data) = false) :
    decode_error msg = ("Execution Error: ".data) ++ msg ∧
    containsSub (decode_error msg) msg = true := by
  have he : decode_error msg = ("Execution Error: ".data) ++ msg := by
    simp [decode_error, h1, h2, h3, h4]
  exact ⟨he, by rw [he]; exact containsSub_append_right msg _⟩

/-- C7 witness: a concrete message matching none of the known substrings. -/
theorem execution_error_fallback_witness :
    decode_error ("Budget exceeded".data) =
      ("Execution Error: ".data) ++ ("Budget exceeded".data) ∧
    containsSub (decode_error ("Budget exceeded".data)) ("Budget exceeded".data) = true :=
  execution_error_fallback ("Budget exceeded".data)
    (by decide) (by decide) (by decide) (by decide)

/-- C8: every message containing a VM-trap keyword together with both
"unreachable" and "stack overflow" (case-insensitive) classifies as the
Unreachable category, because the "unreachable" rule is checked first. -/
theorem unreachable_beats_stack_overflow (msg : List Char)
    (h1 : containsSub (to_lowercase msg) ("wasm trap".data) = true ∨
          containsSub (to_lowercase msg) ("trapped".data) = true)
    (h2 : containsSub (to_lowercase msg) ("unreachable".data) = true)
    (h3 : containsSub (to_lowercase msg) ("stack overflow".data) = true) :
    decode_error msg = ("VM Trap: Unreachable Instruction (Panic or invalid code path)".data) := by
  have hcond : (containsSub (to_lowercase msg) ("wasm trap".data) ||
      containsSub (to_lowercase msg) ("trapped".data)) = true := by
    cases h1 with
    | inl h => simp [h]
    | inr h => simp [h]
  simp [decode_error, hcond, h2]

/-- C8 witness: a concrete message with both "unreachable" and "stack overflow". -/
theorem unreachable_beats_stack_overflow_witness :
    decode_error ("wasm trap: unreachable after stack overflow".data) =
      ("VM Trap: Unreachable Instruction (Panic or invalid code path)".data) :=
  unreachable_beats_stack_overflow ("wasm trap: unreachable after stack overflow".data)
    (Or.inl (by decide)) (by decide) (by decide)

/-- Embedding of the `SimulationRequest` struct (main.rs lines 25-31); the
HashMap of ledger entries is modelled as an association list of pairs in the
(unspecified) iteration order of the map. -/
structure SimulationRequest where
  envelope_xdr : String
  result_meta_xdr : String
  ledger_entries : Option (List (String × String))

/-- Embedding of the `SimulationResponse` struct (main.rs lines 33-39). -/
structure SimulationResponse where
  status : String
  error : Option String
  events : List String
  logs : List String
deriving DecidableEq

/-- Debug rendering of an `ScAddress`; the pipeline only ever prints it. -/
structure InvokeContractArgs where
  contract_address : String

/-- Embedding of `xdr::HostFunction`; the variants other than `InvokeContract`
(contract creation and wasm upload) are handled uniformly by the source's
wildcard arm and are collapsed into one constructor. -/
inductive HostFunction where
  | InvokeContract (invoke_args : InvokeContractArgs)
  | OtherHostFunction

/-- Embedding of `xdr::InvokeHostFunctionOp`, keeping the one field read. -/
structure InvokeHostFunctionOp where
  host_function : HostFunction

/-- Embedding of `xdr::OperationBody`; every operation kind other than
`InvokeHostFunction` is ignored by the source, so they collapse into one
constructor. -/
inductive OperationBody where
  | InvokeHostFunction (op : InvokeHostFunctionOp)
  | OtherOperation

/-- Embedding of `xdr::Operation`, keeping the one field read. -/
structure Operation where
  body : OperationBody

/-- Embedding of `xdr::Transaction`, keeping the one field read. -/
structure Transaction where
  operations : List Operation

/-- Embedding of `xdr::TransactionV1Envelope`, keeping the one field read. -/
structure TransactionV1Envelope where
  tx : Transaction

/-- Embedding of `xdr::TransactionV0`, keeping the one field read. -/
structure TransactionV0 where
  operations : List Operation

/-- Embedding of `xdr::TransactionV0Envelope`, keeping the one field read. -/
structure TransactionV0Envelope where
  tx : TransactionV0

/-- Embedding of `xdr::FeeBumpTransactionInnerTx`: the XDR format allows
exactly one inner shape, a `Tx` (v1) envelope. -/
inductive FeeBumpTransactionInnerTx where
  | Tx (tx : TransactionV1Envelope)

/-- Embedding of `xdr::FeeBumpTransaction`, keeping the one field read. -/
structure FeeBumpTransaction where
  inner_tx : FeeBumpTransactionInnerTx

/-- Embedding of `xdr::FeeBumpTransactionEnvelope`, keeping the one field read. -/
structure FeeBumpTransactionEnvelope where
  tx : FeeBumpTransaction

/-- Embedding of `xdr::TransactionEnvelope`: the closed three-shape variant. -/
inductive TransactionEnvelope where
  | Tx (e : TransactionV1Envelope)
  | TxV0 (e : TransactionV0Envelope)
  | TxFeeBump (e : FeeBumpTransactionEnvelope)

/-- Opaque decoded ledger key; validated but not interpreted by the pipeline. -/
structure LedgerKey where
  raw : List Nat

/-- Opaque decoded ledger entry; validated but not interpreted by the pipeline. -/
structure LedgerEntry where
  raw : List Nat

/-- Abstract model of the external collaborators of `main`: serde_json
(`jsonParse`), the base64 engine (`base64Decode`) and the XDR codec
(`envelopeFromXdr`, `ledgerKeyFromXdr`, `ledgerEntryFromXdr`). Each is an
arbitrary fallible function; errors carry their formatted message text. -/
structure Codec where
  jsonParse : String → Except String SimulationRequest
  base64Decode : String → Except String (List Nat)
  envelopeFromXdr : List Nat → Except String TransactionEnvelope
  ledgerKeyFromXdr : List Nat → Except String LedgerKey
  ledgerEntryFromXdr : List Nat → Except String LedgerEntry

/-- Abstract model of the soroban host as observed by `main`: only
`get_events` is consulted for the response; success carries the
debug-rendered event strings, failure the debug-rendered `HostError`. -/
structure Host where
  get_events : Except String (List String)

/-- Embedding of `send_error` (main.rs lines 193-201), minus the printing. -/
def send_error (msg : String) : SimulationResponse :=
  { status := "error", error := some msg, events := [], logs := [] }

/-- Two's-complement reduction of an integer into the `i32` range: the value
in `[-2^31, 2^31)` congruent to `x` modulo `2^32`. -/
def i32_wrap (x : Int) : Int :=
  (x + 2147483648) % 4294967296 - 2147483648

/-- Embedding of the ledger-entry loading loop of `main` (lines 85-104):
sequential, fail-fast validation of each key/entry pair, counting successes.
The source's `loaded_entries_count` is an inferred `i32`, so each `+= 1` is a
32-bit signed increment, modelled with `i32_wrap` (the wrapping of a release
build; a debug build instead aborts on the overflowing increment). An error
anywhere aborts `main` via `send_error`, modelled here by propagating the
formatted message. -/
def load_ledger_entries (c : Codec) : List (String × String) → Except String Int
  | [] => Except.ok 0
  | (key_xdr, entry_xdr) :: rest =>
    match c.base64Decode key_xdr with
    | Except.error e => Except.error ("Failed to decode LedgerKey Base64: " ++ e)
    | Except.ok b =>
      match c.ledgerKeyFromXdr b with
      | Except.error e => Except.error ("Failed to parse LedgerKey XDR: " ++ e)
      | Except.ok _ =>
        match c.base64Decode entry_xdr with
        | Except.error e => Except.error ("Failed to decode LedgerEntry Base64: " ++ e)
        | Except.ok b2 =>
          match c.ledgerEntryFromXdr b2 with
          | Except.error e => Except.error ("Failed to parse LedgerEntry XDR: " ++ e)
          | Except.ok _ =>
            match load_ledger_entries c rest with
            | Except.error e => Except.error e
            | Except.ok n => Except.ok (i32_wrap (n + 1))

/-- Embedding of the operation extraction match of `main` (lines 109-115). -/
def extract_operations : TransactionEnvelope → List Operation
  | TransactionEnvelope.Tx tx_v1 => tx_v1.tx.operations
  | TransactionEnvelope.TxV0 tx_v0 => tx_v0.tx.operations
  | TransactionEnvelope.TxFeeBump bump =>
    match bump.tx.inner_tx with
    | FeeBumpTransactionInnerTx.Tx tx_v1 => tx_v1.tx.operations

/-- Log line pushed for one operation by the dispatch loop of `main`
(lines 117-128); operations that are not `InvokeHostFunction` push nothing. -/
def dispatch_log : Operation → Option String
  | { body := OperationBody.InvokeHostFunction host_fn_op } =>
    match host_fn_op.host_function with
    | HostFunction.InvokeContract invoke_args =>
      some ("Invoking Contract: " ++ invoke_args.contract_address)
    | HostFunction.OtherHostFunction =>
      some "Skipping non-InvokeContract Host Function"
  | { body := OperationBody.OtherOperation } => none

/-- The `invocation_logs` vector accumulated by the dispatch loop. -/
def invocation_logs (ops : List Operation) : List String :=
  ops.filterMap dispatch_log

/-- Embedding of `main` (lines 53-149) from the point where stdin has been
read into `input`: parse the JSON request, decode the envelope, validate the
ledger entries, walk the operations, query the host's events, and assemble
the response that `main` prints. -/
def run_main (c : Codec) (host : Host) (input : String) : SimulationResponse :=
  match c.jsonParse input with
  | Except.error e => send_error ("Invalid JSON: " ++ e)
  | Except.ok request =>
    match c.base64Decode request.envelope_xdr with
    | Except.error e => send_error ("Failed to decode Envelope Base64: " ++ e)
    | Except.ok bytes =>
      match c.envelopeFromXdr bytes with
      | Except.error e => send_error ("Failed to parse Envelope XDR: " ++ e)
      | Except.ok envelope =>
        match (match request.ledger_entries with
               | none => Except.ok 0
               | some entries => load_ledger_entries c entries) with
        | Except.error e => send_error e
        | Except.ok loaded_entries_count =>
          let events := match host.get_events with
            | Except.ok evs => evs
            | Except.error e => ["Failed to retrieve events: " ++ e]
          { status := "success"
            error := none
            events := events
            logs := ("Host Initialized. Loaded " ++ toString loaded_entries_count
                      ++ " Ledger Entries") :: invocation_logs (extract_operations envelope) }

lemma append_length_pos (p q : String) (h : 0 < p.length) : 0 < (p ++ q).length := by
  rw [String.length_append]
  omega

lemma load_ledger_entries_ok_count (c : Codec) :
    ∀ (pairs : List (String × String)) (n : Int),
      load_ledger_entries c pairs = Except.ok n → n = i32_wrap pairs.length := by
  intro pairs
  induction pairs with
  | nil =>
    intro n h
    simp only [load_ledger_entries, Except.ok.injEq] at h
    simp only [List.length_nil]
    unfold i32_wrap
    omega
  | cons p rest ih =>
    intro n h
    obtain ⟨key_xdr, entry_xdr⟩ := p
    cases hb : c.base64Decode key_xdr with
    | error e => simp [load_ledger_entries, hb] at h
    | ok b =>
      cases hk : c.ledgerKeyFromXdr b with
      | error e => simp [load_ledger_entries, hb, hk] at h
      | ok k =>
        cases hb2 : c.base64Decode entry_xdr with
        | error e => simp [load_ledger_entries, hb, hk, hb2] at h
        | ok b2 =>
          cases he : c.ledgerEntryFromXdr b2 with
          | error e => simp [load_ledger_entries, hb, hk, hb2, he] at h
          | ok en =>
            cases hr : load_ledger_entries c rest with
            | error e => simp [load_ledger_entries, hb, hk, hb2, he, hr] at h
            | ok m =>
              simp only [load_ledger_entries, hb, hk, hb2, he, hr, Except.ok.injEq] at h
              have hm := ih m hr
              simp only [List.length_cons]
              unfold i32_wrap at h hm ⊢
              push_cast at h hm ⊢
              omega

lemma load_ledger_entries_error_shape (c : Codec) :
    ∀ (pairs : List (String × String)) (m : String),
      load_ledger_entries c pairs = Except.error m →
      ((∃ e, m = "Failed to decode LedgerKey Base64: " ++ e) ∨
       (∃ e, m = "Failed to parse LedgerKey XDR: " ++ e) ∨
       (∃ e, m = "Failed to decode LedgerEntry Base64: " ++ e) ∨
       (∃ e, m = "Failed to parse LedgerEntry XDR: " ++ e)) := by
  intro pairs
  induction pairs with
  | nil => intro m h; simp [load_ledger_entries] at h
  | cons p rest ih =>
    intro m h
    obtain ⟨key_xdr, entry_xdr⟩ := p
    cases hb : c.base64Decode key_xdr with
    | error e =>
      simp only [load_ledger_entries, hb, Except.error.injEq] at h
      exact Or.inl ⟨e, h.symm⟩
    | ok b =>
      cases hk : c.ledgerKeyFromXdr b with
      | error e =>
        simp only [load_ledger_entries, hb, hk, Except.error.injEq] at h
        exact Or.inr (Or.inl ⟨e, h.symm⟩)
      | ok k =>
        cases hb2 : c.base64Decode entry_xdr with
        | error e =>
          simp only [load_ledger_entries, hb, hk, hb2, Except.error.injEq] at h
          exact Or.inr (Or.inr (Or.inl ⟨e, h.symm⟩))
        | ok b2 =>
          cases he : c.ledgerEntryFromXdr b2 with
          | error e =>
            simp only [load_ledger_entries, hb, hk, hb2, he, Except.error.injEq] at h
            exact Or.inr (Or.inr (Or.inr ⟨e, h.symm⟩))
          | ok en =>
            cases hr : load_ledger_entries c rest with
            | error e =>
              simp only [load_ledger_entries, hb, hk, hb2, he, hr, Except.error.injEq] at h
              exact h ▸ ih e hr
            | ok n => simp [load_ledger_entries, hb, hk, hb2, he, hr] at h

lemma load_ledger_entries_error_length (c : Codec) (pairs : List (String × String))
    (m : String) (h : load_ledger_entries c pairs = Except.error m) : 0 < m.length := by
  rcases load_ledger_entries_error_shape c pairs m h with ⟨e, he⟩ | ⟨e, he⟩ | ⟨e, he⟩ | ⟨e, he⟩ <;>
    rw [he] <;> exact append_length_pos _ _ (by decide)

lemma run_main_cases (c : Codec) (host : Host) (input : String) :
    (∃ m, run_main c host input = send_error m ∧ 0 < m.length) ∨
    ((run_main c host input).status = "success" ∧ (run_main c host input).error = none) := by
  cases hj : c.jsonParse input with
  | error e =>
    exact Or.inl ⟨"Invalid JSON: " ++ e, by simp [run_main, hj],
      append_length_pos _ _ (by decide)⟩
  | ok req =>
    cases hb : c.base64Decode req.envelope_xdr with
    | error e =>
      exact Or.inl ⟨"Failed to decode Envelope Base64: " ++ e, by simp [run_main, hj, hb],
        append_length_pos _ _ (by decide)⟩
    | ok bytes =>
      cases he : c.envelopeFromXdr bytes with
      | error e =>
        exact Or.inl ⟨"Failed to parse Envelope XDR: " ++ e, by simp [run_main, hj, hb, he],
          append_length_pos _ _ (by decide)⟩
      | ok envelope =>
        cases hle : req.ledger_entries with
        | none =>
          exact Or.inr (by constructor <;> simp [run_main, hj, hb, he, hle])
        | some entries =>
          cases hl : load_ledger_entries c entries with
          | error m =>
            exact Or.inl ⟨m, by simp [run_main, hj, hb, he, hle, hl],
              load_ledger_entries_error_length c entries m hl⟩
          | ok n =>
            exact Or.inr (by constructor <;> simp [run_main, hj, hb, he, hle, hl])

/-- C4: every response `run_main` emits has status "error" exactly when the
error field is present, and on every error path the events and logs are empty
while the error message is non-empty. -/
theorem response_error_invariant (c : Codec) (host : Host) (input : String) :
    ((run_main c host input).status = "error" ↔ (run_main c host input).error ≠ none) ∧
    (∀ m, (run_main c host input).error = some m →
      0 < m.length ∧ (run_main c host input).events = [] ∧ (run_main c host input).logs = []) := by
  rcases run_main_cases c host input with ⟨m, hm, hlen⟩ | ⟨hs, hn⟩
  · constructor
    · rw [hm]
      simp [send_error]
    · intro m' hm'
      rw [hm] at hm'
      simp only [send_error, Option.some.injEq] at hm'
      rw [hm]
      exact ⟨hm' ▸ hlen, rfl, rfl⟩
  · constructor
    · rw [hs, hn]
      decide
    · intro m hm
      rw [hn] at hm
      exact Option.noConfusion hm

/-- C5: the operation extractor is total over the three envelope shapes,
returning the inner operations for `Tx` and `TxV0` and, for `TxFeeBump`, the
operations of the fee-bump's inner `Tx`-shaped transaction. -/
theorem extract_operations_total :
    (∀ e : TransactionV1Envelope,
      extract_operations (TransactionEnvelope.Tx e) = e.tx.operations) ∧
    (∀ e : TransactionV0Envelope,
      extract_operations (TransactionEnvelope.TxV0 e) = e.tx.operations) ∧
    (∀ v1 : TransactionV1Envelope,
      extract_operations (TransactionEnvelope.TxFeeBump
        { tx := { inner_tx := FeeBumpTransactionInnerTx.Tx v1 } }) = v1.tx.operations) :=
  ⟨fun _ => rfl, fun _ => rfl, fun _ => rfl⟩

/-- Fixed request with no ledger entries, for concrete runs. -/
def reqNoEntries : SimulationRequest :=
  { envelope_xdr := "AAAA", result_meta_xdr := "", ledger_entries := none }

/-- Fixed request with one ledger-entry pair, for concrete runs. -/
def reqOnePair : SimulationRequest :=
  { envelope_xdr := "AAAA", result_meta_xdr := "", ledger_entries := some [("a2V5", "ZW50cnk=")] }

/-- Fixed envelope with no operations, for concrete runs. -/
def envelopeEx : TransactionEnvelope :=
  TransactionEnvelope.Tx { tx := { operations := [] } }

/-- Codec whose every decoding step succeeds, for concrete runs. -/
def codecOk : Codec :=
  { jsonParse := fun _ => Except.ok reqNoEntries
    base64Decode := fun _ => Except.ok [0]
    envelopeFromXdr := fun _ => Except.ok envelopeEx
    ledgerKeyFromXdr := fun _ => Except.ok { raw := [] }
    ledgerEntryFromXdr := fun _ => Except.ok { raw := [] } }

/-- Variant of `codecOk` whose parsed request carries one ledger-entry pair. -/
def codecOnePair : Codec :=
  { codecOk with jsonParse := fun _ => Except.ok reqOnePair }

/-- Variant of `codecOk` whose JSON parsing fails. -/
def codecBadJson : Codec :=
  { codecOk with jsonParse := fun _ => Except.error "eof" }

/-- Host whose event query succeeds with no events. -/
def hostQuiet : Host :=
  { get_events := Except.ok [] }

/-- Host whose event query fails. -/
def hostFailing : Host :=
  { get_events := Except.error "boom" }

/-- C4 witness: the bad-JSON codec takes an error path with empty events and
logs and a non-empty message. -/
theorem response_error_invariant_witness :
    0 < ("Invalid JSON: eof" : String).length ∧
    (run_main codecBadJson hostQuiet "x").events = [] ∧
    (run_main codecBadJson hostQuiet "x").logs = [] :=
  (response_error_invariant codecBadJson hostQuiet "x").2 "Invalid JSON: eof" rfl

/-- C3 counterexample: when the event query fails, the failure text lands in
the response's events, not in its logs (the logs hold only the
initialization line), while status stays "success". -/
theorem events_failure_not_in_logs :
    hostFailing.get_events = Except.error "boom" ∧
    (run_main codecOk hostFailing "x").status = "success" ∧
    (run_main codecOk hostFailing "x").logs = ["Host Initialized. Loaded 0 Ledger Entries"] ∧
    (run_main codecOk hostFailing "x").events = ["Failed to retrieve events: boom"] :=
  ⟨rfl, rfl, rfl, rfl⟩

/-- C3 (amended): if the event query fails after all operations are
processed, the failure becomes the single entry "Failed to retrieve
events: ..." of the response's events sequence, and the status is not
changed to an error. -/
theorem events_failure_single_entry (c : Codec) (host : Host) (input : String)
    (req : SimulationRequest) (bytes : List Nat) (envelope : TransactionEnvelope) (e : String)
    (hj : c.jsonParse input = Except.ok req)
    (hb : c.base64Decode req.envelope_xdr = Except.ok bytes)
    (he : c.envelopeFromXdr bytes = Except.ok envelope)
    (hl : req.ledger_entries = none ∨
      ∃ pairs n, req.ledger_entries = some pairs ∧ load_ledger_entries c pairs = Except.ok n)
    (hev : host.get_events = Except.error e) :
    (run_main c host input).events = ["Failed to retrieve events: " ++ e] ∧
    (run_main c host input).status = "success" ∧
    (run_main c host input).error = none := by
  rcases hl with hle | ⟨pairs, n, hle, hl⟩
  · refine ⟨?_, ?_, ?_⟩ <;> simp [run_main, hj, hb, he, hle, hev]
  · refine ⟨?_, ?_, ?_⟩ <;> simp [run_main, hj, hb, he, hle, hl, hev]

/-- C3 (amended) witness: a concrete run with a failing event query. -/
theorem events_failure_single_entry_witness :
    (run_main codecOk hostFailing "y").events = ["Failed to retrieve events: " ++ "boom"] ∧
    (run_main codecOk hostFailing "y").status = "success" ∧
    (run_main codecOk hostFailing "y").error = none :=
  events_failure_single_entry codecOk hostFailing "y" reqNoEntries [0] envelopeEx "boom"
    rfl rfl rfl (Or.inl rfl) rfl

/-- Fixed request whose ledger-entry mapping holds 2^31 identical pairs. -/
def reqHuge : SimulationRequest :=
  { envelope_xdr := "AAAA", result_meta_xdr := "",
    ledger_entries := some (List.replicate 2147483648 ("a", "b")) }

/-- Variant of `codecOk` whose parsed request carries 2^31 ledger-entry pairs. -/
def codecHuge : Codec :=
  { codecOk with jsonParse := fun _ => Except.ok reqHuge }

lemma load_codecHuge_replicate :
    ∀ n : Nat, load_ledger_entries codecHuge (List.replicate n ("a", "b")) =
      Except.ok (i32_wrap n) := by
  have hb : codecHuge.base64Decode = fun _ => Except.ok [0] := rfl
  have hk : codecHuge.ledgerKeyFromXdr = fun _ => Except.ok { raw := [] } := rfl
  have he : codecHuge.ledgerEntryFromXdr = fun _ => Except.ok { raw := [] } := rfl
  intro n
  induction n with
  | zero => rfl
  | succ k ih =>
    rw [List.replicate_succ]
    simp only [load_ledger_entries, hb, hk, he]
    rw [ih]
    simp only [Except.ok.injEq]
    unfold i32_wrap
    push_cast
    omega

lemma run_main_logs_of_ok (c : Codec) (host : Host) (input : String)
    (req : SimulationRequest) (bytes : List Nat) (envelope : TransactionEnvelope)
    (pairs : List (String × String)) (n : Int)
    (hj : c.jsonParse input = Except.ok req)
    (hb : c.base64Decode req.envelope_xdr = Except.ok bytes)
    (he : c.envelopeFromXdr bytes = Except.ok envelope)
    (hle : req.ledger_entries = some pairs)
    (hl : load_ledger_entries c pairs = Except.ok n) :
    (run_main c host input).logs =
      ("Host Initialized. Loaded " ++ toString n ++ " Ledger Entries")
        :: invocation_logs (extract_operations envelope) := by
  simp [run_main, hj, hb, he, hle, hl]

/-- C9 counterexample: a request whose 2^31 ledger-entry pairs all validate,
yet the first log line reports the wrapped 32-bit count -2147483648 instead
of the number of pairs (the source counts with an inferred `i32`). -/
theorem ledger_count_overflow_counterexample :
    load_ledger_entries codecHuge (List.replicate 2147483648 ("a", "b")) =
      Except.ok (-2147483648) ∧
    (run_main codecHuge hostQuiet "w").logs.head? =
      some ("Host Initialized. Loaded -2147483648 Ledger Entries") ∧
    (run_main codecHuge hostQuiet "w").logs.head? ≠
      some ("Host Initialized. Loaded 2147483648 Ledger Entries") := by
  have hw : i32_wrap ((2147483648 : Nat) : Int) = -2147483648 := by
    unfold i32_wrap
    push_cast
  have hload : load_ledger_entries codecHuge (List.replicate 2147483648 ("a", "b")) =
      Except.ok (-2147483648) := by
    rw [load_codecHuge_replicate 2147483648, hw]
  have hlogs := run_main_logs_of_ok codecHuge hostQuiet "w" reqHuge [0] envelopeEx
      (List.replicate 2147483648 ("a", "b")) (-2147483648) rfl rfl rfl rfl hload
  have hhead : (run_main codecHuge hostQuiet "w").logs.head? =
      some ("Host Initialized. Loaded -2147483648 Ledger Entries") := by
    rw [hlogs]
    rfl
  refine ⟨hload, hhead, ?_⟩
  rw [hhead]
  decide

/-- C9 (amended): with a present ledger-entry mapping, if every pair
validates the response is a success, and whenever the mapping holds fewer
than 2^31 pairs the first log line reports the count, which equals the
number of pairs (the source's counter is a 32-bit signed integer); if any
pair fails, the run emits an error response whose message names the failing
step. -/
theorem ledger_entries_count_or_error (c : Codec) (host : Host) (input : String)
    (req : SimulationRequest) (pairs : List (String × String))
    (bytes : List Nat) (envelope : TransactionEnvelope)
    (hj : c.jsonParse input = Except.ok req)
    (hb : c.base64Decode req.envelope_xdr = Except.ok bytes)
    (he : c.envelopeFromXdr bytes = Except.ok envelope)
    (hle : req.ledger_entries = some pairs) :
    (∀ n, load_ledger_entries c pairs = Except.ok n →
      (run_main c host input).status = "success" ∧
      (pairs.length < 2147483648 →
        n = (pairs.length : Int) ∧
        (run_main c host input).logs.head? =
          some ("Host Initialized. Loaded " ++ toString ((pairs.length : Int))
            ++ " Ledger Entries"))) ∧
    (∀ m, load_ledger_entries c pairs = Except.error m →
      run_main c host input = send_error m ∧
      ((∃ e, m = "Failed to decode LedgerKey Base64: " ++ e) ∨
       (∃ e, m = "Failed to parse LedgerKey XDR: " ++ e) ∨
       (∃ e, m = "Failed to decode LedgerEntry Base64: " ++ e) ∨
       (∃ e, m = "Failed to parse LedgerEntry XDR: " ++ e))) := by
  constructor
  · intro n hl
    refine ⟨by simp [run_main, hj, hb, he, hle, hl], ?_⟩
    intro hlen
    have hn := load_ledger_entries_ok_count c pairs n hl
    have hn' : n = (pairs.length : Int) := by
      rw [hn]
      unfold i32_wrap
      omega
    refine ⟨hn', ?_⟩
    simp [run_main, hj, hb, he, hle, hl, hn']
  · intro m hl
    refine ⟨?_, load_ledger_entries_error_shape c pairs m hl⟩
    simp [run_main, hj, hb, he, hle, hl]

/-- C9 (amended) witness: a concrete request with one validating pair
reports a count of one in its first log line. -/
theorem ledger_entries_count_or_error_witness :
    (run_main codecOnePair hostQuiet "z").status = "success" ∧
    (1 : Int) = (([("a2V5", "ZW50cnk=")] : List (String × String)).length : Int) ∧
    (run_main codecOnePair hostQuiet "z").logs.head? =
      some ("Host Initialized. Loaded "
        ++ toString ((([("a2V5", "ZW50cnk=")] : List (String × String)).length : Int))
        ++ " Ledger Entries") := by
  have h := (ledger_entries_count_or_error codecOnePair hostQuiet "z" reqOnePair
    [("a2V5", "ZW50cnk=")] [0] envelopeEx rfl rfl rfl rfl).1 1 rfl
  exact ⟨h.1, (h.2 (by decide)).1, (h.2 (by decide)).2⟩

/-- C10: whenever the request parses, the envelope decodes and every
ledger-entry pair validates, the emitted response has status "success" and no
error field, whatever operations the envelope contains. -/
theorem success_status_invariant (c : Codec) (host : Host) (input : String)
    (req : SimulationRequest) (bytes : List Nat) (envelope : TransactionEnvelope)
    (hj : c.jsonParse input = Except.ok req)
    (hb : c.base64Decode req.envelope_xdr = Except.ok bytes)
    (he : c.envelopeFromXdr bytes = Except.ok envelope)
    (hl : req.ledger_entries = none ∨
      ∃ pairs n, req.ledger_entries = some pairs ∧ load_ledger_entries c pairs = Except.ok n) :
    (run_main c host input).status = "success" ∧ (run_main c host input).error = none := by
  rcases hl with hle | ⟨pairs, n, hle, hl⟩
  · constructor <;> simp [run_main, hj, hb, he, hle]
  · constructor <;> simp [run_main, hj, hb, he, hle, hl]

/-- C10 witness: a concrete fully-successful run. -/
theorem success_status_invariant_witness :
    (run_main codecOk hostQuiet "inp").status = "success" ∧
    (run_main codecOk hostQuiet "inp").error = none :=
  success_status_invariant codecOk hostQuiet "inp" reqNoEntries [0] envelopeEx
    rfl rfl rfl (Or.inl rfl)
